import Mathlib

/- Formal model of the rdrive-go HTTP server layer (src/server.go): the Range
   header grammar, token extraction, capability gating, and the translation of
   HEAD, GET, PUT, PATCH and DELETE requests plus the gemdrive meta protocol
   into backend operations. The Auth and Backend implementations live outside
   the modelled file; they are represented abstractly by function-valued record
   fields, exactly at the granularity at which server.go calls them. Handlers
   return an Option: none models a Go runtime panic (an out-of-bounds index),
   some carries the written response together with the ordered trace of
   capability checks and backend operations the handler performed. -/

namespace Gemdrive

/-- Maximum value of a signed 64-bit integer, the MAX_INT64 constant of server.go. -/
def MAX_INT64 : Int := 9223372036854775807

/-- Numeric value of a decimal digit character, none for any other character. -/
def digitVal (c : Char) : Option Nat :=
  if ('0' ≤ c ∧ c ≤ '9') then some (c.toNat - '0'.toNat) else none

/-- Decimal reading of a nonempty all-digit character list; none on an empty
    list or on any non-digit character. -/
def digitsToNat (cs : List Char) : Option Nat :=
  if cs.isEmpty then none
  else cs.foldl (fun acc c =>
    match acc, digitVal c with
    | some n, some d => some (n * 10 + d)
    | _, _ => none) (some 0)

/-- Model of Go strconv.ParseInt(s, 10, 64): optional leading sign, one or more
    decimal digits, and the signed value must fit the 64-bit range; none models
    a non-nil Go error (syntax or range). -/
def parseInt64 (s : String) : Option Int :=
  match s.toList with
  | [] => none
  | '+' :: rest =>
    match digitsToNat rest with
    | some n => if (n : Int) ≤ MAX_INT64 then some (n : Int) else none
    | none => none
  | '-' :: rest =>
    match digitsToNat rest with
    | some n => if (n : Int) ≤ MAX_INT64 + 1 then some (-(n : Int)) else none
    | none => none
  | cs =>
    match digitsToNat cs with
    | some n => if (n : Int) ≤ MAX_INT64 then some (n : Int) else none
    | none => none

/-- Model of Go strconv.Atoi, which on a 64-bit platform is ParseInt(s, 10, 64)
    truncated to the int type. -/
def atoi : String → Option Int := parseInt64

/-- Splitting worker for the model of Go strings.Split: consume characters one
    at a time, cutting at each non-overlapping occurrence of the separator; the
    fuel argument makes the recursion structural so that the definition
    evaluates inside the kernel (the fuel never runs out when it starts at the
    length of the input). -/
def splitGoAux (sep : List Char) : Nat → List Char → List Char → List (List Char)
  | _, [], acc => [acc]
  | 0, cs, acc => [acc ++ cs]
  | fuel+1, c :: rest, acc =>
    if sep.isPrefixOf (c :: rest) then
      acc :: splitGoAux sep fuel ((c :: rest).drop sep.length) []
    else
      splitGoAux sep fuel rest (acc ++ [c])

/-- Model of Go strings.Split for a non-empty separator: the substrings around
    each non-overlapping occurrence of the separator, leading, trailing and
    adjacent occurrences producing empty strings. -/
def splitGo (s sep : String) : List String :=
  (splitGoAux sep.toList s.toList.length s.toList []).map String.mk

/-- Model of Go strings.HasPrefix. -/
def startsWithGo (s pre : String) : Bool := pre.toList.isPrefixOf s.toList

/-- Model of Go strings.HasSuffix. -/
def endsWithGo (s suffix : String) : Bool := suffix.toList.isSuffixOf s.toList

/-- Model of Go path.Clean restricted to the forward-slash separator: drop
    empty and dot elements, resolve dot-dot against the element stack. -/
def cleanStep (rooted : Bool) (acc : List String) (part : String) : List String :=
  if part == ".." then
    match acc with
    | [] => if rooted then [] else [".."]
    | top :: rest => if top == ".." then part :: acc else rest
  else part :: acc

/-- Model of Go path.Clean for forward-slash paths. -/
def pathClean (p : String) : String :=
  if p == "" then "."
  else
    let rooted := startsWithGo p "/"
    let parts := (splitGo p "/").filter (fun s => s != "" && s != ".")
    let out := (parts.foldl (cleanStep rooted) []).reverse
    let joined := String.intercalate "/" out
    if rooted then "/" ++ joined
    else if joined == "" then "." else joined

/-- Model of Go filepath.Dir on a Unix platform: everything up to and including
    the final separator, cleaned; a path with no separator gives a dot. -/
def filepathDir (p : String) : String :=
  let pre := (p.toList.reverse.dropWhile (fun c => c != '/')).reverse
  pathClean (String.mk pre)

/-- Model of Go filepath.Base on a Unix platform. -/
def filepathBase (p : String) : String :=
  if p == "" then "."
  else
    let cs := p.toList.reverse.dropWhile (fun c => c == '/')
    if cs.isEmpty then "/"
    else String.mk ((cs.takeWhile (fun c => c != '/')).reverse)

/-- Model of Go path.Ext: the suffix of the final path element starting at its
    final dot, empty when that element has no dot. -/
def pathExt (p : String) : String :=
  let rev := p.toList.reverse
  let seg := rev.takeWhile (fun c => c != '/')
  if seg.contains '.' then
    String.mk ((rev.take ((seg.takeWhile (fun c => c != '.')).length + 1)).reverse)
  else ""

/-- Model of Go path.Join on two elements: join the non-empty ones with a
    separator and clean the result. -/
def pathJoin (a b : String) : String :=
  if a == "" && b == "" then ""
  else if a == "" then pathClean b
  else if b == "" then pathClean a
  else pathClean (a ++ "/" ++ b)

/-- Model of Go url.Values.Get: the first value recorded for the key, or the
    empty string when the key is absent. -/
def queryGet (q : List (String × String)) (k : String) : String :=
  match q.find? (fun p => p.1 == k) with
  | some p => p.2
  | none => ""

/-- Structured backend error carrying an HTTP status code and a message, the
    Error type of the repository as used by server.go (fields HttpCode and
    Message). -/
structure Error where
  HttpCode : Nat
  Message : String
deriving DecidableEq

/-- Backend failure as observed by server.go: either a structured Error value,
    recognized by a type assertion, or a generic Go error carrying a message. -/
inductive BErr where
  | structured (e : Error)
  | generic (msg : String)
deriving DecidableEq

/-- Message of a backend failure. The Error method of the structured type is
    outside src/; per the spec its message is the human-readable Message field. -/
def BErr.errString : BErr → String
  | .structured e => e.Message
  | .generic m => m

/-- Filesystem metadata node: a size plus named children, the Item type of the
    repository as used by server.go (fields Size and Children). -/
inductive Item where
  | mk (Size : Int) (Children : List (String × Item))

/-- Size field of an Item. -/
def Item.Size : Item → Int
  | .mk s _ => s

/-- Children field of an Item. -/
def Item.Children : Item → List (String × Item)
  | .mk _ c => c

mutual

/-- Modelled from the spec: JSON serialization of an Item as produced by Go
    json.Marshal (the Item struct and its JSON tags are outside src/); section 6
    of the spec gives the shape with size and children keys. -/
def itemToJson : Item → String
  | .mk size children =>
    "\x7b\"size\":" ++ toString size ++ ",\"children\":\x7b" ++
      childrenToJson children ++ "\x7d\x7d"

/-- JSON serialization of the children map of an Item. -/
def childrenToJson : List (String × Item) → String
  | [] => ""
  | [(n, it)] => "\"" ++ n ++ "\":" ++ itemToJson it
  | (n, it) :: rest => "\"" ++ n ++ "\":" ++ itemToJson it ++ "," ++ childrenToJson rest

end

/-- Parsed Range header, the HttpRange type of server.go (fields Start and End). -/
structure HttpRange where
  Start : Int
  End : Int
deriving DecidableEq

/-- Model of parseRange in server.go: split on the equals sign into exactly two
    parts, split the second part on the dash into exactly two parts, read each
    non-empty part as a 64-bit integer; an empty start means 0 and an empty end
    means MAX_INT64. The error payloads of the two strconv failures stand in
    for the exact Go strconv message text, which no caller inspects beyond
    writing it to the body. -/
def parseRange (header : String) : Except String HttpRange :=
  let parts := splitGo header "="
  if parts.length = 2 then
    let rangeParts := splitGo (parts[1]!) "-"
    if rangeParts.length = 2 then
      match (if rangeParts[0]! = "" then some (0 : Int) else parseInt64 (rangeParts[0]!)) with
      | none => .error "invalid syntax"
      | some start =>
        match (if rangeParts[1]! = "" then some MAX_INT64 else parseInt64 (rangeParts[1]!)) with
        | none => .error "invalid syntax"
        | some e => .ok ⟨start, e⟩
    else .error "Invalid Range header"
  else .error "Invalid Range header"

/-- Events recorded by the model: each capability check and each backend
    operation a handler performs, in order. -/
inductive Event where
  | canRead (token path : String)
  | canWrite (token path : String)
  | list (path : String) (depth : Int)
  | read (path : String) (offset length : Int)
  | write (path : String) (offset length : Int) (overwrite truncate : Bool)
  | makeDir (path : String) (recursive : Bool)
  | delete (path : String) (recursive : Bool)
  | getImage (path : String) (size : Int)
deriving DecidableEq

/-- Whether an event is a backend operation (List, Read, Write, MakeDir,
    Delete or GetImage) as opposed to a capability check. -/
def Event.isBackendOp : Event → Bool
  | .canRead _ _ => false
  | .canWrite _ _ => false
  | _ => true

/-- HTTP response state as driven by the Go ResponseWriter calls server.go
    makes: a header map (Set replaces), at most one explicit status, a body. -/
structure Response where
  headers : List (String × String)
  status : Option Nat
  body : String
deriving DecidableEq

/-- Model of Header().Set: replace any value recorded for the key. -/
def Response.setHeader (resp : Response) (k v : String) : Response :=
  { resp with headers := (resp.headers.filter (fun p => p.1 != k)) ++ [(k, v)] }

/-- Value recorded for a header key, if any. -/
def Response.headerGet (resp : Response) (k : String) : Option String :=
  (resp.headers.find? (fun p => p.1 == k)).map (fun p => p.2)

/-- Model of WriteHeader: the first explicit status wins, as in net/http where
    later WriteHeader calls are ignored. -/
def Response.writeHeader (resp : Response) (code : Nat) : Response :=
  match resp.status with
  | some _ => resp
  | none => { resp with status := some code }

/-- Model of Write: append to the body; the first Write fixes the status at 200
    when none was written explicitly, as in net/http. -/
def Response.write (resp : Response) (s : String) : Response :=
  { resp with status := some (resp.status.getD 200), body := resp.body ++ s }

/-- Response with nothing written yet. -/
def Response.empty : Response := { headers := [], status := none, body := "" }

/-- Status the client observes: 200 when the handler never wrote one. -/
def Response.effectiveStatus (resp : Response) : Nat := resp.status.getD 200

/-- Inbound request as consumed by server.go: method, URL path, host data for
    the domain map, parsed query, the individual headers the code reads, the
    declared ContentLength field, the access_token cookie and the body. -/
structure Request where
  method : String
  path : String
  host : String
  xForwardedHost : String
  query : List (String × String)
  authHeader : String
  rangeHeader : String
  contentLengthHeader : String
  contentLength : Int
  cookieAccessToken : Option String
  body : String

/-- Capability and authorization engine of the repository; its implementation
    is outside src/, so the four entry points server.go calls are abstract
    function fields. -/
structure Auth where
  CanRead : String → String → Bool
  CanWrite : String → String → Bool
  CompleteAuth : String → String → Except String String
  Authorize : String → Except String String

/-- Backend contract as consumed by server.go. The implementations are outside
    src/; writable and imageServer model the Go interface type assertions to
    WritableBackend and ImageServer. -/
structure Backend where
  List : String → Int → Except BErr Item
  Read : String → Int → Int → Except BErr (Item × String)
  writable : Bool
  Write : String → Int → Int → Bool → Bool → Except BErr Unit
  MakeDir : String → Bool → Except BErr Unit
  Delete : String → Bool → Except BErr Unit
  imageServer : Bool
  GetImage : String → Int → Except BErr String

/-- Server context: auth engine, backend, the loaded login page asset, the
    mime lookup table and the domain map from the configuration, plus the JSON
    credential decoding used by the authorize endpoint (outside src/). -/
structure Ctx where
  auth : Auth
  backend : Backend
  loginHtml : String
  mimeType : String → String
  domainMap : List (String × String)
  unmarshalKey : String → Except String String

/-- Model of extractToken in server.go: the access_token query parameter first,
    then the Authorization header split on a single space taking index 1, then
    the access_token cookie; with none of the three present the callers observe
    the empty token since they discard the error. The none result models the Go
    index-out-of-range panic when the Authorization header has no space. -/
def extractToken (r : Request) : Option String :=
  let queryToken := queryGet r.query "access_token"
  if queryToken ≠ "" then some queryToken
  else if r.authHeader ≠ "" then (splitGo r.authHeader " ")[1]?
  else
    match r.cookieAccessToken with
    | some v => some v
    | none => some ""

/-- Model of sendLoginPage in server.go: WWW-Authenticate and Content-Type
    headers, status 403, login page asset as body. -/
def sendLoginPage (ctx : Ctx) (resp : Response) : Response :=
  let resp := resp.setHeader "WWW-Authenticate" "emauth realm=\"Everything\", charset=\"UTF-8\""
  let resp := resp.setHeader "Content-Type" "text/html; charset=utf-8"
  let resp := resp.writeHeader 403
  resp.write ctx.loginHtml

/-- Model of handleHead in server.go. -/
def handleHead (ctx : Ctx) (r : Request) (reqPath : String) (resp : Response) :
    Option (Response × List Event) :=
  match extractToken r with
  | none => none
  | some token =>
    let evs := [Event.canRead token reqPath]
    if ctx.auth.CanRead token reqPath = false then
      some (sendLoginPage ctx resp, evs)
    else
      let parentDir := filepathDir reqPath ++ "/"
      let evs := evs ++ [Event.list parentDir 1]
      match ctx.backend.List parentDir 1 with
      | .error (.structured e) => some ((resp.writeHeader e.HttpCode).write e.Message, evs)
      | .error (.generic m) => some ((resp.writeHeader 500).write m, evs)
      | .ok item =>
        let filename := filepathBase reqPath
        match item.Children.find? (fun c => c.1 == filename) with
        | none => some ((resp.writeHeader 404).write "Not found", evs)
        | some child => some (resp.setHeader "Content-Length" (toString child.2.Size), evs)

/-- Model of handlePut in server.go. -/
def handlePut (ctx : Ctx) (r : Request) (reqPath : String) (resp : Response) :
    Option (Response × List Event) :=
  match extractToken r with
  | none => none
  | some token =>
    let evs := [Event.canWrite token reqPath]
    if ctx.auth.CanWrite token reqPath = false then
      some (sendLoginPage ctx resp, evs)
    else if ctx.backend.writable = false then
      some ((resp.writeHeader 500).write "Backend does not support writing", evs)
    else if endsWithGo reqPath "/" then
      let recursive := queryGet r.query "recursive" == "true"
      let evs := evs ++ [Event.makeDir reqPath recursive]
      match ctx.backend.MakeDir reqPath recursive with
      | .error e => some ((resp.writeHeader 400).write e.errString, evs)
      | .ok _ => some (resp, evs)
    else
      let overwrite := queryGet r.query "overwrite" == "true"
      if r.contentLength < 1 then
        some ((resp.writeHeader 400).write "Invalid write size", evs)
      else
        let evs := evs ++ [Event.write reqPath 0 r.contentLength overwrite true]
        match ctx.backend.Write reqPath 0 r.contentLength overwrite true with
        | .error e => some ((resp.writeHeader 500).write e.errString, evs)
        | .ok _ => some (resp, evs)

/-- Model of handlePatch in server.go. -/
def handlePatch (ctx : Ctx) (r : Request) (reqPath : String) (resp : Response) :
    Option (Response × List Event) :=
  match extractToken r with
  | none => none
  | some token =>
    let evs := [Event.canWrite token reqPath]
    if ctx.auth.CanWrite token reqPath = false then
      some (sendLoginPage ctx resp, evs)
    else if ctx.backend.writable = false then
      some ((resp.writeHeader 500).write "Backend does not support writing", evs)
    else
      let offsetParam := queryGet r.query "offset"
      match (if offsetParam = "" then some (0 : Int) else atoi offsetParam) with
      | none => some ((resp.writeHeader 400).write "Invalid offset", evs)
      | some offset =>
        match atoi r.contentLengthHeader with
        | none => some ((resp.writeHeader 400).write "Invalid content length", evs)
        | some size =>
          let evs := evs ++ [Event.write reqPath offset size true false]
          match ctx.backend.Write reqPath offset size true false with
          | .error e => some ((resp.writeHeader 500).write e.errString, evs)
          | .ok _ => some (resp, evs)

/-- Model of handleDelete in server.go: every backend Delete error, structured
    or not, is written as status 500 with the error message as body. -/
def handleDelete (ctx : Ctx) (r : Request) (reqPath : String) (resp : Response) :
    Option (Response × List Event) :=
  match extractToken r with
  | none => none
  | some token =>
    let evs := [Event.canWrite token reqPath]
    if ctx.auth.CanWrite token reqPath = false then
      some (sendLoginPage ctx resp, evs)
    else if ctx.backend.writable = false then
      some ((resp.writeHeader 500).write "Backend does not support writing", evs)
    else
      let recursive := queryGet r.query "recursive" == "true"
      let evs := evs ++ [Event.delete reqPath recursive]
      match ctx.backend.Delete reqPath recursive with
      | .error e => some ((resp.writeHeader 500).write e.errString, evs)
      | .ok _ => some (resp, evs)

/-- Model of the authorize handler in server.go; CompleteAuth and Authorize are
    abstract since the Auth implementation is outside src/, and the Set-Cookie
    serialization approximates net/http cookie formatting (no claim reads it). -/
def authorizeRequest (ctx : Ctx) (r : Request) (resp : Response) : Response :=
  let id := queryGet r.query "id"
  let code := queryGet r.query "code"
  if id ≠ "" ∧ code ≠ "" then
    match ctx.auth.CompleteAuth id code with
    | .error e => (resp.writeHeader 400).write e
    | .ok token =>
      let resp := resp.setHeader "Set-Cookie"
        ("access_token=" ++ token ++ "; Path=/; Max-Age=31536000; HttpOnly; SameSite=Lax")
      resp.write token
  else
    match ctx.unmarshalKey r.body with
    | .error e => (resp.writeHeader 400).write e
    | .ok key =>
      match ctx.auth.Authorize key with
      | .error e => (resp.writeHeader 400).write e
      | .ok authId => resp.write authId

/-- Model of handleGemDriveRequest in server.go. The caller guarantees the path
    splits on the gemdrive marker into exactly two parts; indexing a shorter
    split, or a missing size or filename part under images, models a Go panic
    as none. -/
def handleGemDriveRequest (ctx : Ctx) (r : Request) (reqPath : String) (resp : Response) :
    Option (Response × List Event) :=
  match extractToken r with
  | none => none
  | some token =>
    match splitGo reqPath "gemdrive/" with
    | gemPath :: gemReq :: _ =>
      if gemReq = "authorize" then
        some (authorizeRequest ctx r resp, [])
      else
        let evs := [Event.canRead token gemPath]
        if ctx.auth.CanRead token gemPath = false then
          some (sendLoginPage ctx resp, evs)
        else if gemReq = "meta.json" then
          let depthParam := queryGet r.query "depth"
          match (if depthParam = "" then some (1 : Int) else atoi depthParam) with
          | none => some ((resp.writeHeader 400).write "Invalid depth param", evs)
          | some depth =>
            let evs := evs ++ [Event.list gemPath depth]
            match ctx.backend.List gemPath depth with
            | .error (.structured e) => some ((resp.writeHeader e.HttpCode).write e.Message, evs)
            | .error (.generic m) => some ((resp.writeHeader 500).write m, evs)
            | .ok item => some (resp.write (itemToJson item), evs)
        else
          let gemReqParts := splitGo gemReq "/"
          if gemReqParts.headD "" = "images" then
            if ctx.backend.imageServer then
              match gemReqParts[1]? with
              | none => none
              | some sizeStr =>
                match atoi sizeStr with
                | none => some ((resp.writeHeader 400).write "invalid size syntax", evs)
                | some size =>
                  match gemReqParts[2]? with
                  | none => none
                  | some filename =>
                    let imagePath := pathJoin gemPath filename
                    let evs := evs ++ [Event.getImage imagePath size]
                    match ctx.backend.GetImage imagePath size with
                    | .error e => some ((resp.writeHeader 500).write e.errString, evs)
                    | .ok img => some (resp.write img, evs)
            else some (resp, evs)
          else some (resp, evs)
    | _ => none

/-- Model of serveDir in server.go: a directory GET reads an index.html child,
    any Read failure becomes a 400. -/
def serveDir (ctx : Ctx) (reqPath : String) (resp : Response) : Response × List Event :=
  let htmlIndexPath := reqPath ++ "index.html"
  let evs := [Event.read htmlIndexPath 0 0]
  match ctx.backend.Read htmlIndexPath 0 0 with
  | .error _ => ((resp.writeHeader 400).write "Attempted to read directory", evs)
  | .ok (_, data) => (resp.write data, evs)

/-- Shared tail of serveFile in server.go: the backend Read and the framing of
    the response around its result, for a parsed range or for a plain GET. -/
def serveFileRead (ctx : Ctx) (reqPath : String) (resp : Response) (rang : Option HttpRange)
    (offset copyLength : Int) : Response × List Event :=
  let evs := [Event.read reqPath offset copyLength]
  match ctx.backend.Read reqPath offset copyLength with
  | .error (.structured e) => ((resp.writeHeader e.HttpCode).write e.Message, evs)
  | .error (.generic m) => ((resp.writeHeader 500).write m, evs)
  | .ok (item, data) =>
    match rang with
    | some rg =>
      let e := if rg.End = MAX_INT64 then item.Size - 1 else rg.End
      let l := e - rg.Start + 1
      let resp := resp.setHeader "Content-Range"
        ("bytes " ++ toString rg.Start ++ "-" ++ toString e ++ "/" ++ toString item.Size)
      let resp := resp.setHeader "Content-Length" (toString l)
      let resp := resp.writeHeader 206
      (resp.write data, evs)
    | none =>
      let resp := resp.setHeader "Content-Length" (toString item.Size)
      (resp.write data, evs)

/-- Header preamble of serveFile in server.go: the Accept-Ranges header and,
    when the download query flag is set, the Content-Disposition header. -/
def serveFilePre (r : Request) (resp : Response) : Response :=
  let resp := resp.setHeader "Accept-Ranges" "bytes"
  if queryGet r.query "download" == "true" then resp.setHeader "Content-Disposition" "attachment"
  else resp

/-- Model of serveFile in server.go. -/
def serveFile (ctx : Ctx) (r : Request) (reqPath : String) (resp : Response) :
    Response × List Event :=
  let resp := serveFilePre r resp
  if r.rangeHeader ≠ "" then
    match parseRange r.rangeHeader with
    | .error e => ((resp.writeHeader 500).write e, [])
    | .ok rang =>
      serveFileRead ctx reqPath resp (some rang) rang.Start
        (if rang.End ≠ MAX_INT64 then rang.End - rang.Start + 1 else 0)
  else
    serveFileRead ctx reqPath resp none 0 0

/-- Model of serveItem in server.go. -/
def serveItem (ctx : Ctx) (r : Request) (reqPath : String) (resp : Response) :
    Option (Response × List Event) :=
  match extractToken r with
  | none => none
  | some token =>
    let evs := [Event.canRead token reqPath]
    if ctx.auth.CanRead token reqPath = false then
      some (sendLoginPage ctx resp, evs)
    else if endsWithGo reqPath "/" then
      let out := serveDir ctx reqPath resp
      some (out.1, evs ++ out.2)
    else
      let out := serveFile ctx r reqPath resp
      some (out.1, evs ++ out.2)

/-- Path after the domain-map rewrite of the main handler in server.go: the
    forwarded host wins over the connection host, and a matching domain-map
    entry prepends its root. -/
def effectivePath (ctx : Ctx) (r : Request) : String :=
  let hostname := if r.xForwardedHost ≠ "" then r.xForwardedHost else r.host
  match ctx.domainMap.find? (fun p => p.1 == hostname) with
  | some p => p.2 ++ r.path
  | none => r.path

/-- Model of the top-level request handler installed by Run in server.go: CORS
    headers, the OPTIONS short-circuit, the domain-map rewrite, the Content-Type
    header from the extension, then the split on the gemdrive marker deciding
    meta-protocol versus direct mode, with the method switch in direct mode. -/
def handleRequest (ctx : Ctx) (r : Request) : Option (Response × List Event) :=
  let resp := Response.empty
  let resp := resp.setHeader "Access-Control-Allow-Origin" "*"
  let resp := resp.setHeader "Access-Control-Allow-Methods" "*"
  let resp := resp.setHeader "Access-Control-Allow-Headers" "*"
  if r.method = "OPTIONS" then some (resp, [])
  else
    let reqPath := effectivePath ctx r
    let pathParts := splitGo reqPath "gemdrive/"
    let resp := resp.setHeader "Content-Type" (ctx.mimeType (pathExt reqPath))
    if pathParts.length = 2 then
      handleGemDriveRequest ctx r reqPath resp
    else if r.method = "HEAD" then handleHead ctx r reqPath resp
    else if r.method = "GET" then serveItem ctx r reqPath resp
    else if r.method = "PUT" then handlePut ctx r reqPath resp
    else if r.method = "PATCH" then handlePatch ctx r reqPath resp
    else if r.method = "DELETE" then handleDelete ctx r reqPath resp
    else some (resp, [])

/-- Response state after the three CORS headers of the main handler. -/
def corsResp : Response :=
  ((Response.empty.setHeader "Access-Control-Allow-Origin" "*").setHeader
      "Access-Control-Allow-Methods" "*").setHeader "Access-Control-Allow-Headers" "*"

/-- Response state handleRequest hands to the per-method handlers: the CORS
    headers plus the Content-Type derived from the path extension. -/
def baseResp (ctx : Ctx) (r : Request) : Response :=
  corsResp.setHeader "Content-Type" (ctx.mimeType (pathExt (effectivePath ctx r)))

/-- Grammar of the Range header written from the words of claim C4: exactly one
    pair after a single equals sign, both bounds optional, a present bound must
    read as a 64-bit integer. Stated with the same split operations the claim
    itself uses to describe the grammar. -/
def rangeGrammarOk (header : String) : Prop :=
  (splitGo header "=").length = 2 ∧
  ((splitGo ((splitGo header "=")[1]!) "-").length = 2 ∧
    ((splitGo ((splitGo header "=")[1]!) "-")[0]! = "" ∨
      (parseInt64 ((splitGo ((splitGo header "=")[1]!) "-")[0]!)).isSome = true) ∧
    ((splitGo ((splitGo header "=")[1]!) "-")[1]! = "" ∨
      (parseInt64 ((splitGo ((splitGo header "=")[1]!) "-")[1]!)).isSome = true))

instance (h : String) : Decidable (rangeGrammarOk h) := by
  unfold rangeGrammarOk
  infer_instance

/-- Backend used by the concrete witness checks: listing yields an empty
    directory, reading yields a 100-byte file, writes succeed, and Delete
    reports the structured non-empty-directory error with code 400. -/
def backendW : Backend where
  List := fun _ _ => .ok (Item.mk 0 [])
  Read := fun _ _ _ => .ok (Item.mk 100 [], "data")
  writable := true
  Write := fun _ _ _ _ _ => .ok ()
  MakeDir := fun _ _ => .ok ()
  Delete := fun _ _ => .error (.structured ⟨400, "directory not empty"⟩)
  imageServer := false
  GetImage := fun _ _ => .error (.generic "no image")

/-- Auth engine granting every capability, for the witness checks. -/
def authAllow : Auth where
  CanRead := fun _ _ => true
  CanWrite := fun _ _ => true
  CompleteAuth := fun _ _ => .error "unsupported"
  Authorize := fun _ => .error "unsupported"

/-- Auth engine denying every capability, for the witness checks. -/
def authDeny : Auth where
  CanRead := fun _ _ => false
  CanWrite := fun _ _ => false
  CompleteAuth := fun _ _ => .error "unsupported"
  Authorize := fun _ => .error "unsupported"

/-- Permissive server context for the witness checks. -/
def ctxW : Ctx where
  auth := authAllow
  backend := backendW
  loginHtml := "LOGIN"
  mimeType := fun _ => "text/plain"
  domainMap := []
  unmarshalKey := fun _ => .error "bad key"

/-- Denying server context for the witness checks. -/
def ctxDeny : Ctx := { ctxW with auth := authDeny }

/-- Base request of the witness checks: an anonymous direct-mode GET. -/
def reqBase : Request where
  method := "GET"
  path := "/files/a.txt"
  host := "h"
  xForwardedHost := ""
  query := []
  authHeader := ""
  rangeHeader := ""
  contentLengthHeader := ""
  contentLength := 0
  cookieAccessToken := none
  body := ""

/-- Backend whose List and Read fail with structured errors, for the
    propagation checks. -/
def backendErr : Backend :=
  { backendW with
    List := fun _ _ => .error (.structured ⟨404, "no such dir"⟩)
    Read := fun _ _ _ => .error (.structured ⟨404, "no such file"⟩) }

/-- Context over the structurally failing backend. -/
def ctxErr : Ctx := { ctxW with backend := backendErr }

/-- Authorized DELETE of a non-empty directory, for claim C2. -/
def reqDel : Request := { reqBase with method := "DELETE", path := "/files/d/" }

/-- Meta-protocol listing request with a negative depth value, for claim C6. -/
def reqMetaNeg : Request :=
  { reqBase with path := "/gemdrive/meta.json", query := [("depth", "-1")] }

/-- PATCH request with a negative offset value, for claim C8. -/
def reqPatchNeg : Request :=
  { reqBase with method := "PATCH", path := "/f.txt",
                 query := [("offset", "-5")], contentLengthHeader := "10" }

/-- GET with a well-formed Range header, for the witness checks. -/
def reqRange : Request := { reqBase with rangeHeader := "bytes=10-19" }

/-- GET with a malformed Range header, for the witness checks. -/
def reqBadRange : Request := { reqBase with rangeHeader := "junk" }

/-- Request carrying the token in the query string, for the witness checks. -/
def reqQ : Request := { reqBase with query := [("access_token", "qtok")] }

/-- Request carrying the token in the Authorization header, for the witness checks. -/
def reqAuth : Request := { reqBase with authHeader := "Bearer htok" }

/-- Request carrying the token in the cookie, for the witness checks. -/
def reqCookie : Request := { reqBase with cookieAccessToken := some "ctok" }

/-- Meta-protocol listing request without a depth parameter. -/
def reqMeta : Request := { reqBase with path := "/gemdrive/meta.json" }

/-- Meta-protocol listing request with a non-integer depth. -/
def reqMetaBad : Request :=
  { reqBase with path := "/gemdrive/meta.json", query := [("depth", "x")] }

/-- Meta-protocol listing request with depth 2. -/
def reqMeta2 : Request :=
  { reqBase with path := "/gemdrive/meta.json", query := [("depth", "2")] }

/-- Whole-file PUT with the overwrite flag and five declared bytes. -/
def reqPutFile : Request :=
  { reqBase with method := "PUT", path := "/files/new.txt",
                 query := [("overwrite", "true")], contentLength := 5 }

/-- Directory PUT with the recursive flag. -/
def reqPutDir : Request :=
  { reqBase with method := "PUT", path := "/files/newdir/",
                 query := [("recursive", "true")] }

/-- PUT with a zero declared content length. -/
def reqPutEmpty : Request := { reqBase with method := "PUT", path := "/files/new.txt" }

/-- PATCH with a well-formed offset and content length. -/
def reqPatchOk : Request :=
  { reqBase with method := "PATCH", path := "/f.txt",
                 query := [("offset", "7")], contentLengthHeader := "10" }

/-- PATCH without an offset parameter but with a content length. -/
def reqPatchNoOff : Request :=
  { reqBase with method := "PATCH", path := "/f.txt", contentLengthHeader := "10" }

/-- PATCH with a non-integer offset. -/
def reqPatchBad : Request :=
  { reqBase with method := "PATCH", path := "/f.txt",
                 query := [("offset", "x")], contentLengthHeader := "10" }

/-- PATCH without a content length header. -/
def reqPatchNoLen : Request :=
  { reqBase with method := "PATCH", path := "/f.txt", query := [("offset", "7")] }

/-- Meta-protocol request naming no known operation. -/
def reqGemBogus : Request := { reqBase with path := "/gemdrive/bogus/x" }



/- Helper lemmas about the Response writer model. -/

@[simp] theorem setHeader_status (resp : Response) (k v : String) :
    (resp.setHeader k v).status = resp.status := rfl

@[simp] theorem setHeader_body (resp : Response) (k v : String) :
    (resp.setHeader k v).body = resp.body := rfl

@[simp] theorem write_status (resp : Response) (s : String) :
    (resp.write s).status = some (resp.status.getD 200) := rfl

@[simp] theorem write_body (resp : Response) (s : String) :
    (resp.write s).body = resp.body ++ s := rfl

@[simp] theorem write_headers (resp : Response) (s : String) :
    (resp.write s).headers = resp.headers := rfl

@[simp] theorem writeHeader_headers (resp : Response) (c : Nat) :
    (resp.writeHeader c).headers = resp.headers := by
  unfold Response.writeHeader
  cases resp.status <;> rfl

@[simp] theorem writeHeader_body (resp : Response) (c : Nat) :
    (resp.writeHeader c).body = resp.body := by
  unfold Response.writeHeader
  cases resp.status <;> rfl

theorem writeHeader_status_of_none (resp : Response) (c : Nat) (h : resp.status = none) :
    (resp.writeHeader c).status = some c := by
  unfold Response.writeHeader
  rw [h]

theorem find?_key_filter_ne (l : List (String × String)) (k : String) :
    (l.filter (fun p => p.1 != k)).find? (fun p => p.1 == k) = none := by
  rw [List.find?_eq_none]
  intro x hx
  have hx2 := (List.mem_filter.mp hx).2
  simp only [bne_iff_ne, ne_eq] at hx2
  simp [hx2]

theorem find?_filter_of_ne (l : List (String × String)) (k k2 : String) (h : k2 ≠ k) :
    (l.filter (fun p => p.1 != k)).find? (fun p => p.1 == k2) =
      l.find? (fun p => p.1 == k2) := by
  have hk : (k == k2) = false := by
    simp only [beq_eq_false_iff_ne, ne_eq]
    exact fun hh => h hh.symm
  induction l with
  | nil => rfl
  | cons hd tl ih =>
    by_cases h1 : hd.1 = k
    · have h12 : ¬ hd.1 = k2 := by
        rw [h1]
        exact fun hh => h hh.symm
      simp [List.filter_cons, h1, List.find?_cons, h12, hk, ih]
    · by_cases h2 : hd.1 = k2
      · simp [List.filter_cons, h1, List.find?_cons, h2, h]
      · simp [List.filter_cons, h1, List.find?_cons, h2, h, ih]

theorem headerGet_setHeader_self (resp : Response) (k v : String) :
    (resp.setHeader k v).headerGet k = some v := by
  unfold Response.setHeader Response.headerGet
  simp [List.find?_append, find?_key_filter_ne]

theorem headerGet_setHeader_ne (resp : Response) (k k2 v : String) (h : (k2 == k) = false) :
    (resp.setHeader k v).headerGet k2 = resp.headerGet k2 := by
  have hne : k2 ≠ k := by simpa using h
  have hk : (k == k2) = false := by
    simp only [beq_eq_false_iff_ne, ne_eq]
    exact fun hh => hne hh.symm
  unfold Response.setHeader Response.headerGet
  rw [List.find?_append, find?_filter_of_ne resp.headers k k2 hne]
  simp [List.find?_cons, hk]

@[simp] theorem headerGet_write (resp : Response) (s k : String) :
    (resp.write s).headerGet k = resp.headerGet k := rfl

@[simp] theorem headerGet_writeHeader (resp : Response) (c : Nat) (k : String) :
    (resp.writeHeader c).headerGet k = resp.headerGet k := by
  unfold Response.headerGet
  rw [writeHeader_headers]

theorem string_empty_append (s : String) : "" ++ s = s := rfl

theorem sendLoginPage_spec (ctx : Ctx) (resp : Response)
    (hs : resp.status = none) (hb : resp.body = "") :
    (sendLoginPage ctx resp).status = some 403 ∧
    (sendLoginPage ctx resp).body = ctx.loginHtml ∧
    (sendLoginPage ctx resp).headerGet "WWW-Authenticate" =
      some "emauth realm=\"Everything\", charset=\"UTF-8\"" := by
  unfold sendLoginPage
  refine ⟨?_, ?_, ?_⟩
  · rw [write_status, writeHeader_status_of_none]
    · rfl
    · simp [hs]
  · rw [write_body, writeHeader_body, setHeader_body, setHeader_body, hb, string_empty_append]
  · rw [headerGet_write, headerGet_writeHeader,
        headerGet_setHeader_ne _ _ _ _ (by decide), headerGet_setHeader_self]


theorem baseResp_status (ctx : Ctx) (r : Request) : (baseResp ctx r).status = none := rfl

theorem baseResp_body (ctx : Ctx) (r : Request) : (baseResp ctx r).body = "" := rfl

theorem handleRequest_dispatch (ctx : Ctx) (r : Request)
    (hopt : r.method ≠ "OPTIONS")
    (hdirect : (splitGo (effectivePath ctx r) "gemdrive/").length ≠ 2) :
    handleRequest ctx r =
      (if r.method = "HEAD" then handleHead ctx r (effectivePath ctx r) (baseResp ctx r)
       else if r.method = "GET" then serveItem ctx r (effectivePath ctx r) (baseResp ctx r)
       else if r.method = "PUT" then handlePut ctx r (effectivePath ctx r) (baseResp ctx r)
       else if r.method = "PATCH" then handlePatch ctx r (effectivePath ctx r) (baseResp ctx r)
       else if r.method = "DELETE" then handleDelete ctx r (effectivePath ctx r) (baseResp ctx r)
       else some (baseResp ctx r, [])) := by
  unfold handleRequest baseResp corsResp
  simp [hopt, hdirect]

theorem handleHead_denied (ctx : Ctx) (r : Request) (reqPath : String) (resp : Response)
    (token : String) (htok : extractToken r = some token)
    (hfail : ctx.auth.CanRead token reqPath = false) :
    handleHead ctx r reqPath resp =
      some (sendLoginPage ctx resp, [Event.canRead token reqPath]) := by
  unfold handleHead
  rw [htok]
  simp [hfail]

theorem serveItem_denied (ctx : Ctx) (r : Request) (reqPath : String) (resp : Response)
    (token : String) (htok : extractToken r = some token)
    (hfail : ctx.auth.CanRead token reqPath = false) :
    serveItem ctx r reqPath resp =
      some (sendLoginPage ctx resp, [Event.canRead token reqPath]) := by
  unfold serveItem
  rw [htok]
  simp [hfail]

theorem handlePut_denied (ctx : Ctx) (r : Request) (reqPath : String) (resp : Response)
    (token : String) (htok : extractToken r = some token)
    (hfail : ctx.auth.CanWrite token reqPath = false) :
    handlePut ctx r reqPath resp =
      some (sendLoginPage ctx resp, [Event.canWrite token reqPath]) := by
  unfold handlePut
  rw [htok]
  simp [hfail]

theorem handlePatch_denied (ctx : Ctx) (r : Request) (reqPath : String) (resp : Response)
    (token : String) (htok : extractToken r = some token)
    (hfail : ctx.auth.CanWrite token reqPath = false) :
    handlePatch ctx r reqPath resp =
      some (sendLoginPage ctx resp, [Event.canWrite token reqPath]) := by
  unfold handlePatch
  rw [htok]
  simp [hfail]

theorem handleDelete_denied (ctx : Ctx) (r : Request) (reqPath : String) (resp : Response)
    (token : String) (htok : extractToken r = some token)
    (hfail : ctx.auth.CanWrite token reqPath = false) :
    handleDelete ctx r reqPath resp =
      some (sendLoginPage ctx resp, [Event.canWrite token reqPath]) := by
  unfold handleDelete
  rw [htok]
  simp [hfail]

/-- C1: every direct-mode request whose capability check fails (CanRead for
    HEAD and GET, CanWrite for PUT, PATCH and DELETE) is answered with status
    403, the login page as body and the WWW-Authenticate challenge header, and
    no backend operation (List, Read, Write, MakeDir, Delete) is invoked. -/
theorem c1_direct_mode_denied (ctx : Ctx) (r : Request) (token : String)
    (hopt : r.method ≠ "OPTIONS")
    (hdirect : (splitGo (effectivePath ctx r) "gemdrive/").length ≠ 2)
    (htok : extractToken r = some token)
    (hm : ((r.method = "HEAD" ∨ r.method = "GET") ∧
             ctx.auth.CanRead token (effectivePath ctx r) = false) ∨
          ((r.method = "PUT" ∨ r.method = "PATCH" ∨ r.method = "DELETE") ∧
             ctx.auth.CanWrite token (effectivePath ctx r) = false)) :
    ∃ out : Response × List Event,
      handleRequest ctx r = some out ∧
      out.1.status = some 403 ∧
      out.1.body = ctx.loginHtml ∧
      out.1.headerGet "WWW-Authenticate" =
        some "emauth realm=\"Everything\", charset=\"UTF-8\"" ∧
      ∀ e ∈ out.2, e.isBackendOp = false := by
  have hlogin := sendLoginPage_spec ctx (baseResp ctx r) (baseResp_status ctx r) (baseResp_body ctx r)
  rw [handleRequest_dispatch ctx r hopt hdirect]
  rcases hm with ⟨hme2, hfail⟩ | ⟨hme2, hfail⟩
  · rcases hme2 with hme | hme
    · rw [hme]
      simp only [reduceIte]
      rw [handleHead_denied ctx r _ _ token htok hfail]
      exact ⟨_, rfl, hlogin.1, hlogin.2.1, hlogin.2.2, by simp [Event.isBackendOp]⟩
    · rw [hme]
      simp only [reduceIte]
      rw [serveItem_denied ctx r _ _ token htok hfail]
      exact ⟨_, rfl, hlogin.1, hlogin.2.1, hlogin.2.2, by simp [Event.isBackendOp]⟩
  · rcases hme2 with hme | hme | hme
    · rw [hme]
      simp only [reduceIte]
      rw [handlePut_denied ctx r _ _ token htok hfail]
      exact ⟨_, rfl, hlogin.1, hlogin.2.1, hlogin.2.2, by simp [Event.isBackendOp]⟩
    · rw [hme]
      simp only [reduceIte]
      rw [handlePatch_denied ctx r _ _ token htok hfail]
      exact ⟨_, rfl, hlogin.1, hlogin.2.1, hlogin.2.2, by simp [Event.isBackendOp]⟩
    · rw [hme]
      simp only [reduceIte]
      rw [handleDelete_denied ctx r _ _ token htok hfail]
      exact ⟨_, rfl, hlogin.1, hlogin.2.1, hlogin.2.2, by simp [Event.isBackendOp]⟩

/-- Witness for C1: the denying context rejects the anonymous direct-mode GET
    with the 403 login response and an empty backend trace. -/
theorem c1_direct_mode_denied_witness :
    ∃ out : Response × List Event,
      handleRequest ctxDeny reqBase = some out ∧
      out.1.status = some 403 ∧
      out.1.body = ctxDeny.loginHtml ∧
      out.1.headerGet "WWW-Authenticate" =
        some "emauth realm=\"Everything\", charset=\"UTF-8\"" ∧
      ∀ e ∈ out.2, e.isBackendOp = false :=
  c1_direct_mode_denied ctxDeny reqBase "" (by decide) (by decide) (by decide)
    (Or.inl ⟨Or.inr rfl, rfl⟩)


theorem serveFilePre_status (r : Request) (resp : Response) :
    (serveFilePre r resp).status = resp.status := by
  unfold serveFilePre
  split <;> rfl

theorem serveFilePre_body (r : Request) (resp : Response) :
    (serveFilePre r resp).body = resp.body := by
  unfold serveFilePre
  split <;> rfl

/-- Counterexample to C2: the witness backend reports the structured Error
    with code 400 for a Delete of a non-empty directory, yet the DELETE request
    is answered with status 500 (the message body is kept); handleDelete never
    inspects the structured code, so the backend code is not propagated. -/
theorem c2_counterexample :
    backendW.Delete "/files/d/" false =
      Except.error (BErr.structured ⟨400, "directory not empty"⟩) ∧
    (handleRequest ctxW reqDel).map (fun out => out.1.status) = some (some 500) ∧
    (handleRequest ctxW reqDel).map (fun out => out.1.body) = some "directory not empty" := by
  refine ⟨rfl, ?_, ?_⟩ <;> decide

/-- C2 as amended: structured backend errors are propagated verbatim only by
    the handlers that inspect them, such as the Read path of GET; handleDelete
    maps every backend Delete failure, structured or not, to status 500 with
    the error message as body, so a DELETE with recursive false on a non-empty
    directory whose backend reports a 400-class structured error is answered
    with 500, not with a 400-class status. -/
theorem c2_error_mapping :
    (∀ (ctx : Ctx) (r : Request) (reqPath : String) (resp : Response) (token : String)
        (be : BErr),
      extractToken r = some token →
      ctx.auth.CanWrite token reqPath = true →
      ctx.backend.writable = true →
      ctx.backend.Delete reqPath (queryGet r.query "recursive" == "true") = .error be →
      resp.status = none →
      resp.body = "" →
      ∃ out : Response × List Event,
        handleDelete ctx r reqPath resp = some out ∧
        out.1.status = some 500 ∧
        out.1.body = be.errString) ∧
    (∀ (ctx : Ctx) (r : Request) (reqPath : String) (resp : Response) (e : Error),
      resp.status = none →
      resp.body = "" →
      r.rangeHeader = "" →
      ctx.backend.Read reqPath 0 0 = .error (.structured e) →
      (serveFile ctx r reqPath resp).1.status = some e.HttpCode ∧
      (serveFile ctx r reqPath resp).1.body = e.Message) := by
  constructor
  · intro ctx r reqPath resp token be htok hcw hwr hdel hs hb
    refine ⟨((resp.writeHeader 500).write be.errString,
             [Event.canWrite token reqPath,
              Event.delete reqPath (queryGet r.query "recursive" == "true")]), ?_, ?_, ?_⟩
    · unfold handleDelete
      rw [htok]
      simp [hcw, hwr, hdel]
    · rw [write_status, writeHeader_status_of_none _ _ hs]
      rfl
    · rw [write_body, writeHeader_body, hb, string_empty_append]
  · intro ctx r reqPath resp e hs hb hrange hread
    unfold serveFile
    rw [hrange]
    simp only [ne_eq, not_true_eq_false, reduceIte]
    unfold serveFileRead
    rw [hread]
    constructor
    · rw [write_status, writeHeader_status_of_none]
      · rfl
      · rw [serveFilePre_status r resp, hs]
    · rw [write_body, writeHeader_body, serveFilePre_body r resp, hb, string_empty_append]

/-- Witness for C2 as amended: the concrete Delete failure is answered 500 and
    the concrete structured Read failure is propagated verbatim. -/
theorem c2_error_mapping_witness :
    (∃ out : Response × List Event,
      handleDelete ctxW reqDel "/files/d/" Response.empty = some out ∧
      out.1.status = some 500 ∧
      out.1.body = (BErr.structured ⟨400, "directory not empty"⟩).errString) ∧
    ((serveFile ctxErr reqBase "/files/a.txt" Response.empty).1.status =
        some (Error.mk 404 "no such file").HttpCode ∧
      (serveFile ctxErr reqBase "/files/a.txt" Response.empty).1.body =
        (Error.mk 404 "no such file").Message) :=
  ⟨c2_error_mapping.1 ctxW reqDel "/files/d/" Response.empty ""
      (BErr.structured ⟨400, "directory not empty"⟩) (by decide) rfl rfl rfl rfl rfl,
    c2_error_mapping.2 ctxErr reqBase "/files/a.txt" Response.empty
      (Error.mk 404 "no such file") rfl rfl rfl rfl⟩


/-- C3: a GET on a file with a well-formed Range header is answered 206 with a
    Content-Range header of the form bytes start-end/total, the end resolved to
    the Item size minus one when the range was open-ended, and Content-Length
    equal to end - start + 1; a GET without a Range header is answered 200 with
    Content-Length equal to the Item size. -/
theorem c3_range_semantics :
    (∀ (ctx : Ctx) (r : Request) (reqPath : String) (resp : Response) (rang : HttpRange)
        (item : Item) (data : String),
      resp.status = none →
      r.rangeHeader ≠ "" →
      parseRange r.rangeHeader = .ok rang →
      ctx.backend.Read reqPath rang.Start
          (if rang.End ≠ MAX_INT64 then rang.End - rang.Start + 1 else 0) = .ok (item, data) →
      ((serveFile ctx r reqPath resp).1.status = some 206 ∧
       (serveFile ctx r reqPath resp).1.headerGet "Content-Range" =
         some ("bytes " ++ toString rang.Start ++ "-" ++
               toString (if rang.End = MAX_INT64 then item.Size - 1 else rang.End) ++ "/" ++
               toString item.Size) ∧
       (serveFile ctx r reqPath resp).1.headerGet "Content-Length" =
         some (toString
           ((if rang.End = MAX_INT64 then item.Size - 1 else rang.End) - rang.Start + 1)))) ∧
    (∀ (ctx : Ctx) (r : Request) (reqPath : String) (resp : Response) (item : Item)
        (data : String),
      resp.status = none →
      r.rangeHeader = "" →
      ctx.backend.Read reqPath 0 0 = .ok (item, data) →
      ((serveFile ctx r reqPath resp).1.status = some 200 ∧
       (serveFile ctx r reqPath resp).1.headerGet "Content-Length" =
         some (toString item.Size))) := by
  constructor
  · intro ctx r reqPath resp rang item data hs hrange hparse hread
    unfold serveFile serveFileRead
    simp only [hrange, ne_eq, not_false_iff, if_true, hparse, hread]
    refine ⟨?_, ?_, ?_⟩
    · rw [write_status, writeHeader_status_of_none]
      · rfl
      · rw [setHeader_status, setHeader_status, serveFilePre_status, hs]
    · rw [headerGet_write, headerGet_writeHeader,
          headerGet_setHeader_ne _ _ _ _ (by decide), headerGet_setHeader_self]
    · rw [headerGet_write, headerGet_writeHeader, headerGet_setHeader_self]
  · intro ctx r reqPath resp item data hs hrange hread
    unfold serveFile serveFileRead
    simp only [hrange, ne_eq, not_true_eq_false, if_false, reduceIte, hread]
    refine ⟨?_, ?_⟩
    · rw [write_status, setHeader_status, serveFilePre_status, hs]
      rfl
    · rw [headerGet_write, headerGet_setHeader_self]

/-- Witness for C3: a Range of bytes 10 to 19 over the 100-byte witness file is
    answered 206 with Content-Range bytes 10-19/100 and Content-Length 10, and
    the same GET without a Range header is answered 200 with Content-Length 100. -/
theorem c3_range_semantics_witness :
    ((serveFile ctxW reqRange "/files/a.txt" Response.empty).1.status = some 206 ∧
     (serveFile ctxW reqRange "/files/a.txt" Response.empty).1.headerGet "Content-Range" =
       some "bytes 10-19/100" ∧
     (serveFile ctxW reqRange "/files/a.txt" Response.empty).1.headerGet "Content-Length" =
       some "10") ∧
    ((serveFile ctxW reqBase "/files/a.txt" Response.empty).1.status = some 200 ∧
     (serveFile ctxW reqBase "/files/a.txt" Response.empty).1.headerGet "Content-Length" =
       some "100") := by
  have h1 := c3_range_semantics.1 ctxW reqRange "/files/a.txt" Response.empty
    ⟨10, 19⟩ (Item.mk 100 []) "data" rfl (by decide) rfl rfl
  have h2 := c3_range_semantics.2 ctxW reqBase "/files/a.txt" Response.empty
    (Item.mk 100 []) "data" rfl rfl rfl
  exact ⟨⟨h1.1, h1.2.1.trans (by decide), h1.2.2.trans (by decide)⟩,
         ⟨h2.1, h2.2.trans (by decide)⟩⟩


/-- C4: parseRange accepts exactly one pair after a single equals sign, both
    bounds optional, an omitted start reading as 0 and an omitted end reading
    as the MAX_INT64 to-end-of-file marker, and a Range header outside this
    grammar makes the GET fail with status 500, not 400. -/
theorem c4_range_grammar :
    (∀ h : String, (∃ rg, parseRange h = Except.ok rg) ↔ rangeGrammarOk h) ∧
    (∀ (h : String) (rg : HttpRange), parseRange h = Except.ok rg →
      (splitGo ((splitGo h "=")[1]!) "-")[0]! = "" → rg.Start = 0) ∧
    (∀ (h : String) (rg : HttpRange), parseRange h = Except.ok rg →
      (splitGo ((splitGo h "=")[1]!) "-")[1]! = "" → rg.End = MAX_INT64) ∧
    (∀ (ctx : Ctx) (r : Request) (reqPath : String) (resp : Response) (msg : String),
      resp.status = none → r.rangeHeader ≠ "" → parseRange r.rangeHeader = .error msg →
      (serveFile ctx r reqPath resp).1.status = some 500) := by
  refine ⟨?_, ?_, ?_, ?_⟩
  · intro h
    constructor
    · rintro ⟨rg, hrg⟩
      simp only [parseRange] at hrg
      by_cases h1 : (splitGo h "=").length = 2
      · rw [if_pos h1] at hrg
        by_cases h2 : (splitGo ((splitGo h "=")[1]!) "-").length = 2
        · rw [if_pos h2] at hrg
          refine ⟨h1, h2, ?_, ?_⟩
          · by_cases he : (splitGo ((splitGo h "=")[1]!) "-")[0]! = ""
            · exact Or.inl he
            · rw [if_neg he] at hrg
              rcases hp : parseInt64 ((splitGo ((splitGo h "=")[1]!) "-")[0]!) with _ | v
              · rw [hp] at hrg
                simp at hrg
              · exact Or.inr rfl
          · rcases hm0 : (if (splitGo ((splitGo h "=")[1]!) "-")[0]! = "" then some (0 : Int)
                else parseInt64 ((splitGo ((splitGo h "=")[1]!) "-")[0]!)) with _ | s0
            · rw [hm0] at hrg
              simp at hrg
            · rw [hm0] at hrg
              by_cases he : (splitGo ((splitGo h "=")[1]!) "-")[1]! = ""
              · exact Or.inl he
              · rw [if_neg he] at hrg
                rcases hp : parseInt64 ((splitGo ((splitGo h "=")[1]!) "-")[1]!) with _ | v
                · rw [hp] at hrg
                  simp at hrg
                · exact Or.inr rfl
        · rw [if_neg h2] at hrg
          simp at hrg
      · rw [if_neg h1] at hrg
        simp at hrg
    · rintro ⟨h1, h2, hd1, hd2⟩
      have hs1 : ∃ v : Int, (if (splitGo ((splitGo h "=")[1]!) "-")[0]! = "" then some (0 : Int)
          else parseInt64 ((splitGo ((splitGo h "=")[1]!) "-")[0]!)) = some v := by
        by_cases he : (splitGo ((splitGo h "=")[1]!) "-")[0]! = ""
        · exact ⟨0, by rw [if_pos he]⟩
        · rcases hd1 with he2 | hp
          · exact absurd he2 he
          · obtain ⟨v, hv⟩ := Option.isSome_iff_exists.mp hp
            exact ⟨v, by rw [if_neg he, hv]⟩
      have hs2 : ∃ v : Int, (if (splitGo ((splitGo h "=")[1]!) "-")[1]! = "" then some MAX_INT64
          else parseInt64 ((splitGo ((splitGo h "=")[1]!) "-")[1]!)) = some v := by
        by_cases he : (splitGo ((splitGo h "=")[1]!) "-")[1]! = ""
        · exact ⟨MAX_INT64, by rw [if_pos he]⟩
        · rcases hd2 with he2 | hp
          · exact absurd he2 he
          · obtain ⟨v, hv⟩ := Option.isSome_iff_exists.mp hp
            exact ⟨v, by rw [if_neg he, hv]⟩
      obtain ⟨v1, hv1⟩ := hs1
      obtain ⟨v2, hv2⟩ := hs2
      refine ⟨⟨v1, v2⟩, ?_⟩
      simp only [parseRange]
      rw [if_pos h1, if_pos h2, hv1, hv2]
  · intro h rg hrg hempty
    simp only [parseRange] at hrg
    by_cases h1 : (splitGo h "=").length = 2
    · rw [if_pos h1] at hrg
      by_cases h2 : (splitGo ((splitGo h "=")[1]!) "-").length = 2
      · rw [if_pos h2, if_pos hempty] at hrg
        rcases hm : (if (splitGo ((splitGo h "=")[1]!) "-")[1]! = "" then some MAX_INT64
            else parseInt64 ((splitGo ((splitGo h "=")[1]!) "-")[1]!)) with _ | v
        · rw [hm] at hrg
          simp at hrg
        · rw [hm] at hrg
          cases rg with
          | mk s e =>
            simp only [Except.ok.injEq, HttpRange.mk.injEq] at hrg
            simp only [HttpRange.Start]
            exact hrg.1.symm
      · rw [if_neg h2] at hrg
        simp at hrg
    · rw [if_neg h1] at hrg
      simp at hrg
  · intro h rg hrg hempty
    simp only [parseRange] at hrg
    by_cases h1 : (splitGo h "=").length = 2
    · rw [if_pos h1] at hrg
      by_cases h2 : (splitGo ((splitGo h "=")[1]!) "-").length = 2
      · rw [if_pos h2] at hrg
        rcases hm0 : (if (splitGo ((splitGo h "=")[1]!) "-")[0]! = "" then some (0 : Int)
            else parseInt64 ((splitGo ((splitGo h "=")[1]!) "-")[0]!)) with _ | s0
        · rw [hm0] at hrg
          simp at hrg
        · rw [hm0, if_pos hempty] at hrg
          cases rg with
          | mk s e =>
            simp only [Except.ok.injEq, HttpRange.mk.injEq] at hrg
            simp only [HttpRange.End]
            exact hrg.2.symm
      · rw [if_neg h2] at hrg
        simp at hrg
    · rw [if_neg h1] at hrg
      simp at hrg
  · intro ctx r reqPath resp msg hs hrange hparse
    unfold serveFile
    simp only [hrange, ne_eq, not_false_iff, if_true, hparse]
    rw [write_status, writeHeader_status_of_none]
    · rfl
    · rw [serveFilePre_status, hs]

/-- Witness for C4: the grammar characterization at a well-formed and a
    malformed header, the open-bound defaults at concrete headers, and the 500
    answer for a GET with a malformed Range header. -/
theorem c4_range_grammar_witness :
    ((∃ rg, parseRange "bytes=10-19" = Except.ok rg) ↔ rangeGrammarOk "bytes=10-19") ∧
    ((∃ rg, parseRange "bytes=1-2-3" = Except.ok rg) ↔ rangeGrammarOk "bytes=1-2-3") ∧
    HttpRange.Start ⟨0, 5⟩ = 0 ∧
    HttpRange.End ⟨9, MAX_INT64⟩ = MAX_INT64 ∧
    (serveFile ctxW reqBadRange "/files/a.txt" Response.empty).1.status = some 500 :=
  ⟨c4_range_grammar.1 "bytes=10-19",
   c4_range_grammar.1 "bytes=1-2-3",
   c4_range_grammar.2.1 "bytes=-5" ⟨0, 5⟩ rfl (by decide),
   c4_range_grammar.2.2.1 "bytes=9-" ⟨9, MAX_INT64⟩ rfl (by decide),
   c4_range_grammar.2.2.2 ctxW reqBadRange "/files/a.txt" Response.empty
     "Invalid Range header" rfl (by decide) rfl⟩


/-- C5: token extraction tries the access_token query parameter, then the
    Authorization header (index 1 of its split on the space character), then
    the access_token cookie, in that order, using the first present value; with
    all three absent the token is the empty string and the handlers still run
    the capability check with that empty token. -/
theorem c5_token_priority :
    (∀ r : Request, queryGet r.query "access_token" ≠ "" →
      extractToken r = some (queryGet r.query "access_token")) ∧
    (∀ r : Request, queryGet r.query "access_token" = "" → r.authHeader ≠ "" →
      extractToken r = (splitGo r.authHeader " ")[1]?) ∧
    (∀ (r : Request) (v : String), queryGet r.query "access_token" = "" → r.authHeader = "" →
      r.cookieAccessToken = some v → extractToken r = some v) ∧
    (∀ r : Request, queryGet r.query "access_token" = "" → r.authHeader = "" →
      r.cookieAccessToken = none → extractToken r = some "") ∧
    (∀ (ctx : Ctx) (r : Request) (reqPath : String) (resp : Response),
      queryGet r.query "access_token" = "" → r.authHeader = "" →
      r.cookieAccessToken = none →
      ∃ out : Response × List Event,
        handleHead ctx r reqPath resp = some out ∧ Event.canRead "" reqPath ∈ out.2) ∧
    (∀ (ctx : Ctx) (r : Request) (reqPath : String) (resp : Response),
      queryGet r.query "access_token" = "" → r.authHeader = "" →
      r.cookieAccessToken = none →
      ∃ out : Response × List Event,
        handlePut ctx r reqPath resp = some out ∧ Event.canWrite "" reqPath ∈ out.2) := by
  have hanon : ∀ r : Request, queryGet r.query "access_token" = "" → r.authHeader = "" →
      r.cookieAccessToken = none → extractToken r = some "" := by
    intro r hq ha hc
    unfold extractToken
    simp [hq, ha, hc]
  refine ⟨?_, ?_, ?_, hanon, ?_, ?_⟩
  · intro r hq
    unfold extractToken
    simp [hq]
  · intro r hq ha
    unfold extractToken
    simp [hq, ha]
  · intro r v hq ha hc
    unfold extractToken
    simp [hq, ha, hc]
  · intro ctx r reqPath resp hq ha hc
    unfold handleHead
    simp only [hanon r hq ha hc]
    by_cases hcr : ctx.auth.CanRead "" reqPath = false
    · rw [if_pos hcr]
      exact ⟨_, rfl, by simp⟩
    · rw [if_neg hcr]
      rcases hL : ctx.backend.List (filepathDir reqPath ++ "/") 1 with be | item
      · cases be with
        | structured e =>
          simp only [hL]
          exact ⟨_, rfl, by simp⟩
        | generic m =>
          simp only [hL]
          exact ⟨_, rfl, by simp⟩
      · simp only [hL]
        rcases hF : item.Children.find? (fun c => c.1 == filepathBase reqPath) with _ | child
        · simp only [hF]
          exact ⟨_, rfl, by simp⟩
        · simp only [hF]
          exact ⟨_, rfl, by simp⟩
  · intro ctx r reqPath resp hq ha hc
    unfold handlePut
    simp only [hanon r hq ha hc]
    by_cases hcw : ctx.auth.CanWrite "" reqPath = false
    · rw [if_pos hcw]
      exact ⟨_, rfl, by simp⟩
    · rw [if_neg hcw]
      by_cases hwr : ctx.backend.writable = false
      · rw [if_pos hwr]
        exact ⟨_, rfl, by simp⟩
      · rw [if_neg hwr]
        by_cases hdir : endsWithGo reqPath "/" = true
        · simp only [hdir, if_true]
          rcases hM : ctx.backend.MakeDir reqPath (queryGet r.query "recursive" == "true")
              with be | u
          · simp only [hM]
            exact ⟨_, rfl, by simp⟩
          · simp only [hM]
            exact ⟨_, rfl, by simp⟩
        · simp only [hdir]
          by_cases hcl : r.contentLength < 1
          · rw [if_pos hcl]
            exact ⟨_, rfl, by simp⟩
          · rw [if_neg hcl]
            rcases hW : ctx.backend.Write reqPath 0 r.contentLength
                (queryGet r.query "overwrite" == "true") true with be | u
            · simp only [hW]
              exact ⟨_, rfl, by simp⟩
            · simp only [hW]
              exact ⟨_, rfl, by simp⟩

/-- Witness for C5: each extraction source at a concrete request, the anonymous
    empty token, and the anonymous HEAD and PUT requests reaching the
    capability check with the empty token. -/
theorem c5_token_priority_witness :
    extractToken reqQ = some "qtok" ∧
    extractToken reqAuth = some "htok" ∧
    extractToken reqCookie = some "ctok" ∧
    extractToken reqBase = some "" ∧
    (∃ out : Response × List Event,
      handleHead ctxW reqBase "/files/a.txt" Response.empty = some out ∧
      Event.canRead "" "/files/a.txt" ∈ out.2) ∧
    (∃ out : Response × List Event,
      handlePut ctxW reqPutEmpty "/files/new.txt" Response.empty = some out ∧
      Event.canWrite "" "/files/new.txt" ∈ out.2) :=
  ⟨(c5_token_priority.1 reqQ (by decide)).trans (by decide),
   (c5_token_priority.2.1 reqAuth rfl (by decide)).trans (by decide),
   c5_token_priority.2.2.1 reqCookie "ctok" rfl rfl rfl,
   c5_token_priority.2.2.2.1 reqBase rfl rfl rfl,
   c5_token_priority.2.2.2.2.1 ctxW reqBase "/files/a.txt" Response.empty rfl rfl rfl,
   c5_token_priority.2.2.2.2.2 ctxW reqPutEmpty "/files/new.txt" Response.empty rfl rfl rfl⟩


/-- Counterexample to C6: the depth value -1 does not parse as a non-negative
    integer, yet the meta.json request does not fail with 400 before List; the
    handler parses -1 with Atoi, invokes List with depth -1 and answers 200. -/
theorem c6_counterexample :
    atoi "-1" = some (-1) ∧
    (handleRequest ctxW reqMetaNeg).map (fun out => out.2) =
      some [Event.canRead "" "/", Event.list "/" (-1)] ∧
    (handleRequest ctxW reqMetaNeg).map (fun out => out.1.status) = some (some 200) := by
  refine ⟨rfl, ?_, ?_⟩ <;> decide

/-- C6 as amended: the depth parameter of meta.json defaults to 1 when absent;
    a depth value that does not parse as an integer fails with 400 before List
    is invoked; an integer depth value, negative values included, is accepted
    and passed to List unchecked. -/
theorem c6_meta_depth :
    ∀ (ctx : Ctx) (r : Request) (reqPath gemPath : String) (resp : Response) (token : String),
      extractToken r = some token →
      splitGo reqPath "gemdrive/" = [gemPath, "meta.json"] →
      ctx.auth.CanRead token gemPath = true →
      resp.status = none →
      ((queryGet r.query "depth" = "" →
         ∃ out : Response × List Event,
           handleGemDriveRequest ctx r reqPath resp = some out ∧
           Event.list gemPath 1 ∈ out.2) ∧
       (∀ dp : String, queryGet r.query "depth" = dp → dp ≠ "" → atoi dp = none →
         ∃ out : Response × List Event,
           handleGemDriveRequest ctx r reqPath resp = some out ∧
           out.1.status = some 400 ∧
           ∀ (p : String) (d : Int), Event.list p d ∉ out.2) ∧
       (∀ (dp : String) (d : Int), queryGet r.query "depth" = dp → dp ≠ "" → atoi dp = some d →
         ∃ out : Response × List Event,
           handleGemDriveRequest ctx r reqPath resp = some out ∧
           Event.list gemPath d ∈ out.2)) := by
  intro ctx r reqPath gemPath resp token htok hsplit hcr hs
  have hbranch : ∀ depth : Int,
      ∃ out : Response × List Event,
        (match ctx.backend.List gemPath depth with
         | Except.error (BErr.structured e) =>
             some ((resp.writeHeader e.HttpCode).write e.Message,
               [Event.canRead token gemPath, Event.list gemPath depth])
         | Except.error (BErr.generic m) =>
             some ((resp.writeHeader 500).write m,
               [Event.canRead token gemPath, Event.list gemPath depth])
         | Except.ok item =>
             some (resp.write (itemToJson item),
               [Event.canRead token gemPath, Event.list gemPath depth])) = some out ∧
        Event.list gemPath depth ∈ out.2 := by
    intro depth
    rcases hL : ctx.backend.List gemPath depth with be | item
    · cases be with
      | structured e =>
        simp only [hL]
        exact ⟨_, rfl, by simp⟩
      | generic m =>
        simp only [hL]
        exact ⟨_, rfl, by simp⟩
    · simp only [hL]
      exact ⟨_, rfl, by simp⟩
  refine ⟨?_, ?_, ?_⟩
  · intro hdp
    unfold handleGemDriveRequest
    simp only [htok, hsplit, hcr, hdp, reduceIte]
    exact hbranch 1
  · intro dp hdp hne hnone
    unfold handleGemDriveRequest
    simp only [htok, hsplit, hcr, hdp, hne, hnone, reduceIte]
    refine ⟨_, rfl, ?_, ?_⟩
    · rw [write_status, writeHeader_status_of_none _ _ hs]
      rfl
    · intro p d
      simp
  · intro dp d hdp hne hsome
    unfold handleGemDriveRequest
    simp only [htok, hsplit, hcr, hdp, hne, hsome, reduceIte]
    exact hbranch d

/-- Witness for C6 as amended: a meta.json request without depth lists at depth
    1, the non-integer depth x is answered 400 without a List call, and depth 2
    lists at depth 2. -/
theorem c6_meta_depth_witness :
    (∃ out : Response × List Event,
      handleGemDriveRequest ctxW reqMeta "/gemdrive/meta.json" Response.empty = some out ∧
      Event.list "/" 1 ∈ out.2) ∧
    (∃ out : Response × List Event,
      handleGemDriveRequest ctxW reqMetaBad "/gemdrive/meta.json" Response.empty = some out ∧
      out.1.status = some 400 ∧
      ∀ (p : String) (d : Int), Event.list p d ∉ out.2) ∧
    (∃ out : Response × List Event,
      handleGemDriveRequest ctxW reqMeta2 "/gemdrive/meta.json" Response.empty = some out ∧
      Event.list "/" 2 ∈ out.2) :=
  ⟨(c6_meta_depth ctxW reqMeta "/gemdrive/meta.json" "/" Response.empty ""
      (by decide) (by decide) rfl rfl).1 rfl,
   (c6_meta_depth ctxW reqMetaBad "/gemdrive/meta.json" "/" Response.empty ""
      (by decide) (by decide) rfl rfl).2.1 "x" rfl (by decide) rfl,
   (c6_meta_depth ctxW reqMeta2 "/gemdrive/meta.json" "/" Response.empty ""
      (by decide) (by decide) rfl rfl).2.2 "2" 2 rfl (by decide) rfl⟩


/-- C7: an authorized PUT on a path with a trailing separator calls MakeDir
    with the recursive query flag and no Write; otherwise a declared content
    length below 1 is rejected with 400 before any Write or MakeDir, and a
    positive declared length leads to a Write at offset 0 with truncate true
    and the overwrite query flag. -/
theorem c7_put_semantics :
    ∀ (ctx : Ctx) (r : Request) (reqPath : String) (resp : Response) (token : String),
      extractToken r = some token →
      ctx.auth.CanWrite token reqPath = true →
      ctx.backend.writable = true →
      resp.status = none →
      ((endsWithGo reqPath "/" = true →
         ∃ out : Response × List Event,
           handlePut ctx r reqPath resp = some out ∧
           Event.makeDir reqPath (queryGet r.query "recursive" == "true") ∈ out.2 ∧
           ∀ (p : String) (o l : Int) (ov tr : Bool), Event.write p o l ov tr ∉ out.2) ∧
       (endsWithGo reqPath "/" = false → r.contentLength < 1 →
         ∃ out : Response × List Event,
           handlePut ctx r reqPath resp = some out ∧
           out.1.status = some 400 ∧
           (∀ (p : String) (o l : Int) (ov tr : Bool), Event.write p o l ov tr ∉ out.2) ∧
           (∀ (p : String) (rec : Bool), Event.makeDir p rec ∉ out.2)) ∧
       (endsWithGo reqPath "/" = false → 1 ≤ r.contentLength →
         ∃ out : Response × List Event,
           handlePut ctx r reqPath resp = some out ∧
           Event.write reqPath 0 r.contentLength
             (queryGet r.query "overwrite" == "true") true ∈ out.2)) := by
  intro ctx r reqPath resp token htok hcw hwr hs
  refine ⟨?_, ?_, ?_⟩
  · intro hdir
    unfold handlePut
    simp only [htok, hcw, hwr, hdir, reduceIte]
    rcases hM : ctx.backend.MakeDir reqPath (queryGet r.query "recursive" == "true") with be | u
    · simp only [hM]
      exact ⟨_, rfl, by simp, by simp⟩
    · simp only [hM]
      exact ⟨_, rfl, by simp, by simp⟩
  · intro hdir hsmall
    unfold handlePut
    simp only [htok, hcw, hwr, hdir, hsmall, reduceIte]
    refine ⟨_, rfl, ?_, by simp, by simp⟩
    rw [write_status, writeHeader_status_of_none _ _ hs]
    rfl
  · intro hdir hbig
    have hnl : ¬ (r.contentLength < 1) := by omega
    unfold handlePut
    simp only [htok, hcw, hwr, hdir, hnl, reduceIte]
    rcases hW : ctx.backend.Write reqPath 0 r.contentLength
        (queryGet r.query "overwrite" == "true") true with be | u
    · simp only [hW]
      exact ⟨_, rfl, by simp⟩
    · simp only [hW]
      exact ⟨_, rfl, by simp⟩

/-- Witness for C7: the directory PUT calls MakeDir with the recursive flag,
    the zero-length file PUT is answered 400 without backend writes, and the
    five-byte PUT writes at offset 0 with truncate true. -/
theorem c7_put_semantics_witness :
    (∃ out : Response × List Event,
      handlePut ctxW reqPutDir "/files/newdir/" Response.empty = some out ∧
      Event.makeDir "/files/newdir/" (queryGet reqPutDir.query "recursive" == "true") ∈ out.2 ∧
      ∀ (p : String) (o l : Int) (ov tr : Bool), Event.write p o l ov tr ∉ out.2) ∧
    (∃ out : Response × List Event,
      handlePut ctxW reqPutEmpty "/files/new.txt" Response.empty = some out ∧
      out.1.status = some 400 ∧
      (∀ (p : String) (o l : Int) (ov tr : Bool), Event.write p o l ov tr ∉ out.2) ∧
      (∀ (p : String) (rec : Bool), Event.makeDir p rec ∉ out.2)) ∧
    (∃ out : Response × List Event,
      handlePut ctxW reqPutFile "/files/new.txt" Response.empty = some out ∧
      Event.write "/files/new.txt" 0 reqPutFile.contentLength
        (queryGet reqPutFile.query "overwrite" == "true") true ∈ out.2) :=
  ⟨(c7_put_semantics ctxW reqPutDir "/files/newdir/" Response.empty ""
      (by decide) rfl rfl rfl).1 (by decide),
   (c7_put_semantics ctxW reqPutEmpty "/files/new.txt" Response.empty ""
      (by decide) rfl rfl rfl).2.1 (by decide) (by decide),
   (c7_put_semantics ctxW reqPutFile "/files/new.txt" Response.empty ""
      (by decide) rfl rfl rfl).2.2 (by decide) (by decide)⟩

/-- Counterexample to C8: the offset query value -5 parses with Atoi, so the
    PATCH is not rejected and the backend Write is invoked with the negative
    offset -5, contradicting that the offset is never negative. -/
theorem c8_counterexample :
    atoi "-5" = some (-5) ∧
    (handleRequest ctxW reqPatchNeg).map (fun out => out.2) =
      some [Event.canWrite "" "/f.txt", Event.write "/f.txt" (-5) 10 true false] := by
  refine ⟨rfl, ?_⟩
  decide

/-- C8 as amended: the PATCH offset comes from the offset query parameter,
    defaulting to 0 when absent and failing with 400 when present but
    non-integer, while a negative integer offset is accepted and passed to
    Write; the length comes from the Content-Length header, failing with 400
    when missing or non-integer; Write runs with overwrite true and truncate
    false. -/
theorem c8_patch_semantics :
    ∀ (ctx : Ctx) (r : Request) (reqPath : String) (resp : Response) (token : String),
      extractToken r = some token →
      ctx.auth.CanWrite token reqPath = true →
      ctx.backend.writable = true →
      resp.status = none →
      ((∀ n : Int, queryGet r.query "offset" = "" →
         atoi r.contentLengthHeader = some n →
         ∃ out : Response × List Event,
           handlePatch ctx r reqPath resp = some out ∧
           Event.write reqPath 0 n true false ∈ out.2) ∧
       (∀ dp : String, queryGet r.query "offset" = dp → dp ≠ "" → atoi dp = none →
         ∃ out : Response × List Event,
           handlePatch ctx r reqPath resp = some out ∧
           out.1.status = some 400 ∧
           ∀ (p : String) (o l : Int) (ov tr : Bool), Event.write p o l ov tr ∉ out.2) ∧
       (∀ (dp : String) (o : Int), queryGet r.query "offset" = dp → dp ≠ "" →
         atoi dp = some o → atoi r.contentLengthHeader = none →
         ∃ out : Response × List Event,
           handlePatch ctx r reqPath resp = some out ∧
           out.1.status = some 400 ∧
           ∀ (p : String) (o2 l : Int) (ov tr : Bool), Event.write p o2 l ov tr ∉ out.2) ∧
       (∀ (dp : String) (o n : Int), queryGet r.query "offset" = dp → dp ≠ "" →
         atoi dp = some o → atoi r.contentLengthHeader = some n →
         ∃ out : Response × List Event,
           handlePatch ctx r reqPath resp = some out ∧
           Event.write reqPath o n true false ∈ out.2)) := by
  intro ctx r reqPath resp token htok hcw hwr hs
  refine ⟨?_, ?_, ?_, ?_⟩
  · intro n hdp hn
    unfold handlePatch
    simp only [htok, hcw, hwr, hdp, hn, reduceIte]
    rcases hW : ctx.backend.Write reqPath 0 n true false with be | u
    · simp only [hW]
      exact ⟨_, rfl, by simp⟩
    · simp only [hW]
      exact ⟨_, rfl, by simp⟩
  · intro dp hdp hne hnone
    unfold handlePatch
    simp only [htok, hcw, hwr, hdp, hne, hnone, reduceIte]
    refine ⟨_, rfl, ?_, by simp⟩
    rw [write_status, writeHeader_status_of_none _ _ hs]
    rfl
  · intro dp o hdp hne ho hnone
    unfold handlePatch
    simp only [htok, hcw, hwr, hdp, hne, ho, hnone, reduceIte]
    refine ⟨_, rfl, ?_, by simp⟩
    rw [write_status, writeHeader_status_of_none _ _ hs]
    rfl
  · intro dp o n hdp hne ho hn
    unfold handlePatch
    simp only [htok, hcw, hwr, hdp, hne, ho, hn, reduceIte]
    rcases hW : ctx.backend.Write reqPath o n true false with be | u
    · simp only [hW]
      exact ⟨_, rfl, by simp⟩
    · simp only [hW]
      exact ⟨_, rfl, by simp⟩

/-- Witness for C8 as amended: the offset-free PATCH writes at offset 0, the
    non-integer offset is answered 400 without a Write, the missing content
    length is answered 400 without a Write, and offset 7 with content length 10
    writes at offset 7 with overwrite true and truncate false. -/
theorem c8_patch_semantics_witness :
    (∃ out : Response × List Event,
      handlePatch ctxW reqPatchNoOff "/f.txt" Response.empty = some out ∧
      Event.write "/f.txt" 0 10 true false ∈ out.2) ∧
    (∃ out : Response × List Event,
      handlePatch ctxW reqPatchBad "/f.txt" Response.empty = some out ∧
      out.1.status = some 400 ∧
      ∀ (p : String) (o l : Int) (ov tr : Bool), Event.write p o l ov tr ∉ out.2) ∧
    (∃ out : Response × List Event,
      handlePatch ctxW reqPatchNoLen "/f.txt" Response.empty = some out ∧
      out.1.status = some 400 ∧
      ∀ (p : String) (o2 l : Int) (ov tr : Bool), Event.write p o2 l ov tr ∉ out.2) ∧
    (∃ out : Response × List Event,
      handlePatch ctxW reqPatchOk "/f.txt" Response.empty = some out ∧
      Event.write "/f.txt" 7 10 true false ∈ out.2) :=
  ⟨(c8_patch_semantics ctxW reqPatchNoOff "/f.txt" Response.empty ""
      (by decide) rfl rfl rfl).1 10 rfl rfl,
   (c8_patch_semantics ctxW reqPatchBad "/f.txt" Response.empty ""
      (by decide) rfl rfl rfl).2.1 "x" rfl (by decide) rfl,
   (c8_patch_semantics ctxW reqPatchNoLen "/f.txt" Response.empty ""
      (by decide) rfl rfl rfl).2.2.1 "7" 7 rfl (by decide) rfl rfl,
   (c8_patch_semantics ctxW reqPatchOk "/f.txt" Response.empty ""
      (by decide) rfl rfl rfl).2.2.2 "7" 7 10 rfl (by decide) rfl rfl⟩

/-- C9: token extraction is not total: a request whose Authorization header is
    non-empty but contains no space character makes extractToken index element
    1 of a one-element split, the out-of-bounds access that the model renders
    as none (a Go index-out-of-range panic) instead of a token or an error. -/
theorem c9_extract_token_partial :
    ∃ r : Request,
      r.authHeader ≠ "" ∧
      r.authHeader.toList.contains ' ' = false ∧
      queryGet r.query "access_token" = "" ∧
      (splitGo r.authHeader " ").length = 1 ∧
      extractToken r = none := by
  refine ⟨{ reqBase with authHeader := "Bearertok123" }, ?_, ?_, ?_, ?_, ?_⟩ <;> decide

/-- C10: a meta-protocol request that passes the read check but names neither
    meta.json nor authorize, and whose first slash-separated part is not images
    (or is images while the backend is not an ImageServer), leaves the response
    untouched: no status and no body are written, so the effective status the
    client observes is 200 with an empty body, not 404. -/
theorem c10_unknown_op_fallthrough :
    ∀ (ctx : Ctx) (r : Request) (reqPath gemPath gemReq : String) (resp : Response)
      (token : String),
      extractToken r = some token →
      splitGo reqPath "gemdrive/" = [gemPath, gemReq] →
      gemReq ≠ "authorize" →
      gemReq ≠ "meta.json" →
      ctx.auth.CanRead token gemPath = true →
      ((splitGo gemReq "/").headD "" ≠ "images" ∨ ctx.backend.imageServer = false) →
      handleGemDriveRequest ctx r reqPath resp =
        some (resp, [Event.canRead token gemPath]) ∧
      (resp.status = none → resp.effectiveStatus = 200) := by
  intro ctx r reqPath gemPath gemReq resp token htok hsplit hauth hmeta hcr him
  constructor
  · unfold handleGemDriveRequest
    simp only [htok, hsplit, hauth, hmeta, hcr, reduceIte]
    rcases him with him | him
    · simp at him
      simp [him]
    · by_cases hh : (splitGo gemReq "/").headD "" = "images"
      · simp [hh, him]
      · simp [hh, him]
  · intro hs
    unfold Response.effectiveStatus
    rw [hs]
    rfl

/-- Witness for C10: the unknown operation bogus/x under the gemdrive marker is
    passed through with the response untouched and an effective status of 200. -/
theorem c10_unknown_op_fallthrough_witness :
    handleGemDriveRequest ctxW reqGemBogus "/gemdrive/bogus/x" Response.empty =
      some (Response.empty, [Event.canRead "" "/"]) ∧
    (Response.empty.status = none → Response.empty.effectiveStatus = 200) :=
  c10_unknown_op_fallthrough ctxW reqGemBogus "/gemdrive/bogus/x" "/" "bogus/x"
    Response.empty "" (by decide) (by decide) (by decide) (by decide) rfl
    (Or.inl (by decide))

end Gemdrive
